import Mathlib

/-!
Verification of the incremental result-caching and merge protocol of the
two scripts in this repository (`categorize_issues.py` and
`process_export_issues.py`).

The Python code is shallowly embedded: the in-memory `cached_results` dict
becomes an insertion-ordered association list with Python-dict update
semantics, the per-issue driver loop becomes a fold in an `Except` monad
(a Python exception escaping the loop is `Except.error`), and the external
collaborators (the `claude` CLI and the stdlib `json` decoder) become
explicit oracle parameters, since their behaviour is outside this
repository.
-/

set_option linter.unusedVariables false

namespace CatIssues

/-- A fetched GitHub issue, as built by `parse_issues` in
`categorize_issues.py` (fields of the `Issue` dataclass). -/
structure Issue where
  number : Nat
  title : String
  body : String
  state : String
  labels : List String
  comments : List String
  url : String
deriving DecidableEq

/-- A per-issue result record, as returned by `categorize_issue_with_claude`
and stored in `results.json`: the five driver-set fields (any of which the
`**result_json` splat of line 226 may override) and the three expected
keys of the tool's answer; `none` stands for JSON `null` or an absent
key. -/
structure IssueResult where
  issue_number : Nat
  title : String
  url : String
  state : String
  labels : List String
  is_user_error : Option Bool
  confidence : Option String
  reasoning : Option String
deriving DecidableEq

/-- The `cached_results` dict (`dict[int, dict]`), as an insertion-ordered
association list: Python dicts keep insertion order, update a present key
in place, and append an absent key at the end. -/
abbrev Store := List (Nat × IssueResult)

/-- Python dict assignment `d[k] = v`: replace in place if the key is
present, append at the end otherwise. -/
def dictInsert : Store → Nat → IssueResult → Store
  | [], k, v => [(k, v)]
  | (k', v') :: rest, k, v =>
      if k' = k then (k, v) :: rest else (k', v') :: dictInsert rest k v

/-- Python dict read `d.get(k)` / `d[k]` guarded by `k in d`. -/
def lookup : Store → Nat → Option IssueResult
  | [], _ => none
  | (k', v) :: rest, k => if k' = k then some v else lookup rest k

/-- The merge loop of `main` (lines 320-322):
`for result in results: cached_results[result["issue_number"]] = result`. -/
def merge (store : Store) (results : List IssueResult) : Store :=
  results.foldl (fun s r => dictInsert s r.issue_number r) store

theorem lookup_dictInsert (s : Store) (k : Nat) (v : IssueResult) (n : Nat) :
    lookup (dictInsert s k v) n = if k = n then some v else lookup s n := by
  induction s with
  | nil => simp [dictInsert, lookup]
  | cons a rest ih =>
      obtain ⟨k', v'⟩ := a
      by_cases hk : k' = k
      · subst hk
        by_cases hn : k' = n <;> simp [dictInsert, lookup, hn]
      · by_cases hn : k' = n
        · subst hn
          have hkn : ¬k = k' := fun h => hk h.symm
          simp [dictInsert, lookup, hk, hkn]
        · simp [dictInsert, lookup, hk, hn, ih]

theorem merge_nil (store : Store) : merge store [] = store := rfl

theorem merge_cons (store : Store) (r : IssueResult) (rs : List IssueResult) :
    merge store (r :: rs) = merge (dictInsert store r.issue_number r) rs := rfl

/-- The final store looks up an identifier to the last result of the batch
carrying it, falling back to the prior store. -/
theorem lookup_merge (batch : List IssueResult) (store : Store) (n : Nat) :
    lookup (merge store batch) n =
      match List.find? (fun r => r.issue_number == n) batch.reverse with
      | some r => some r
      | none => lookup store n := by
  induction batch generalizing store with
  | nil => simp [merge]
  | cons r rs ih =>
      rw [merge_cons, ih, List.reverse_cons, List.find?_append]
      cases hf : List.find? (fun r => r.issue_number == n) rs.reverse with
      | some x => simp [hf]
      | none =>
          simp only [hf, Option.none_orElse, List.find?_singleton,
            lookup_dictInsert]
          by_cases h : r.issue_number = n
          · simp [h]
          · simp [h, Nat.beq_eq_true_eq]

theorem mem_dictInsert_of_ne (s : Store) (k : Nat) (v : IssueResult)
    (p : Nat × IssueResult) (hp : p ∈ s) (hne : p.1 ≠ k) :
    p ∈ dictInsert s k v := by
  induction s with
  | nil => cases hp
  | cons a rest ih =>
      obtain ⟨k', v'⟩ := a
      by_cases hk : k' = k
      · subst hk
        simp only [dictInsert, if_pos rfl]
        rcases List.mem_cons.mp hp with h | h
        · exact absurd (congrArg Prod.fst h) hne
        · exact List.mem_cons_of_mem _ h
      · simp only [dictInsert, if_neg hk]
        rcases List.mem_cons.mp hp with h | h
        · exact h ▸ List.mem_cons_self _ _
        · exact List.mem_cons_of_mem _ (ih h)

theorem mem_merge_of_not_touched (batch : List IssueResult) (store : Store)
    (p : Nat × IssueResult) (hp : p ∈ store)
    (hb : ∀ r, r ∈ batch → r.issue_number ≠ p.1) :
    p ∈ merge store batch := by
  induction batch generalizing store with
  | nil => exact hp
  | cons r rs ih =>
      rw [merge_cons]
      refine ih _ ?_ (fun x hx => hb x (List.mem_cons_of_mem _ hx))
      exact mem_dictInsert_of_ne _ _ _ _ hp
        (fun h => hb r (List.mem_cons_self _ _) (h ▸ rfl))

/-- Claim C1: merging a batch of newly produced results into the loaded
store inserts each result under its identifier, letting the last result of
the batch for an identifier overwrite any prior result for it, while every
entry of the prior store whose identifier does not occur in the batch is
still present unchanged: a right-biased union keyed by identifier. -/
theorem merge_right_biased_union (store : Store) (batch : List IssueResult) :
    (∀ n, lookup (merge store batch) n =
      match List.find? (fun r => r.issue_number == n) batch.reverse with
      | some r => some r
      | none => lookup store n) ∧
    (∀ p, p ∈ store → (∀ r, r ∈ batch → r.issue_number ≠ p.1) →
      p ∈ merge store batch) :=
  ⟨fun n => lookup_merge batch store n,
   fun p hp hb => mem_merge_of_not_touched batch store p hp hb⟩

def demoResult (n : Nat) (t : String) : IssueResult :=
  { issue_number := n, title := t, url := "u", state := "open", labels := [],
    is_user_error := some true, confidence := some "high",
    reasoning := some "r" }

def demoStoreA : Store := [(5, demoResult 5 "old five"), (1, demoResult 1 "old one")]

def demoBatchA : List IssueResult := [demoResult 1 "new one", demoResult 1 "newer one"]

theorem merge_right_biased_union_witness :
    lookup (merge demoStoreA demoBatchA) 1 = some (demoResult 1 "newer one") ∧
    (5, demoResult 5 "old five") ∈ merge demoStoreA demoBatchA := by
  constructor
  · have h := (merge_right_biased_union demoStoreA demoBatchA).1 1
    rw [h]
    decide
  · exact (merge_right_biased_union demoStoreA demoBatchA).2
      (5, demoResult 5 "old five") (by decide) (by decide)

/-- Claim C2: merging the same results batch twice yields the same
identifier-to-result mapping as merging it once (Python `==` on dicts is
exactly this key-by-key comparison), so the merge is idempotent. -/
theorem merge_idempotent (A : Store) (R : List IssueResult) (n : Nat) :
    lookup (merge (merge A R) R) n = lookup (merge A R) n := by
  rw [lookup_merge, lookup_merge]
  cases hf : List.find? (fun r => r.issue_number == n) R.reverse <;> rfl

/-! ### The item processor `categorize_issue_with_claude` (lines 138-227)

The `claude` subprocess and the stdlib JSON decoder are external
collaborators, so they enter the embedding as oracles: `ToolResp` is the
outcome of `subprocess.run` and `JLoad` the outcome of `json.loads`
(decode error, a non-object value, or an object of the expected shape). -/

/-- Outcome of the `subprocess.run(["claude", ...])` call: normal exit 0
with captured stdout, `TimeoutExpired`, or `CalledProcessError` (non-zero
exit; carries `e.stderr` and `str(e)`). -/
inductive ToolResp where
  | ok (stdout : String)
  | timeout
  | procError (stderr : String) (exnStr : String)
deriving DecidableEq

/-- The decoded JSON object of a tool reply: the three expected keys,
plus any of the five fixed keys of the result record — `**result_json`
(line 226) is evaluated after the fixed fields, so a key present in the
parsed object (`some _` here) overrides the driver-set value. -/
structure Jobj where
  is_user_error : Option Bool
  confidence : Option String
  reasoning : Option String
  issue_number : Option Nat
  title : Option String
  url : Option String
  state : Option String
  labels : Option (List String)
deriving DecidableEq

/-- Outcome of `json.loads` on a given string: `JSONDecodeError`, a value
that is not an object (so `**result_json` would raise `TypeError`), or an
object. -/
inductive JLoad where
  | err
  | nonDict
  | obj (o : Jobj)
deriving DecidableEq

/-- A Python exception escaping `categorize_issue_with_claude`. -/
inductive PyExn where
  | jsonDecodeError
  | typeError
  | attributeError
deriving DecidableEq

/-- Is `sub` a prefix of `l`? (used to embed Python substring search). -/
def chPre : List Char → List Char → Bool
  | [], _ => true
  | _ :: _, [] => false
  | a :: as, b :: bs => a == b && chPre as bs

/-- Leftmost occurrence of `sub` in `l`, as an index. -/
def findSub : List Char → List Char → Option Nat
  | [], sub => if chPre sub [] then some 0 else none
  | c :: t, sub => if chPre sub (c :: t) then some 0 else (findSub t sub).map (· + 1)

/-- Python `s.find(sub, start)`: index of the leftmost occurrence at or
after `start`, `-1` when absent.  (`sub in s` is `s.find(sub) >= 0`.) -/
def pyFind (l sub : List Char) (start : Nat) : Int :=
  match findSub (l.drop start) sub with
  | some j => Int.ofNat (start + j)
  | none => -1

/-- Python slice `s[start:stop]` with a possibly negative `stop`
(`str.find` returns `-1` when the closing fence is absent). -/
def pySlice (l : List Char) (start : Nat) (stop : Int) : List Char :=
  let e : Nat := if stop < 0 then (Int.ofNat l.length + stop).toNat
                 else min stop.toNat l.length
  (l.drop start).take (e - start)

/-- ASCII whitespace recognized by Python `str.strip()`. -/
def pyWs (c : Char) : Bool :=
  c == ' ' || c == '\t' || c == '\n' || c == '\r' || c == '\x0b' || c == '\x0c'

/-- Python `str.strip()`. -/
def pyStrip (l : List Char) : List Char :=
  ((l.dropWhile pyWs).reverse.dropWhile pyWs).reverse

/-- The markdown code-fence handling of lines 186-193: cut out the text
between a leading fence marker and the next fence, then strip it. -/
def stripFences (t : List Char) : List Char :=
  let fj := "```json".data
  let f3 := "```".data
  if 0 ≤ pyFind t fj 0 then
    let s := (pyFind t fj 0).toNat + 7
    pyStrip (pySlice t s (pyFind t f3 s))
  else if 0 ≤ pyFind t f3 0 then
    let s := (pyFind t f3 0).toNat + 3
    pyStrip (pySlice t s (pyFind t f3 s))
  else t

/-- `response_text` as computed from the raw stdout (lines 183-193):
`result.stdout.strip()` followed by the fence handling. -/
def responseText (stdout : String) : String :=
  String.mk (stripFences (pyStrip stdout.data))

/-- The literal `"is_user_error"` (with its quotes) of the fallback regex. -/
def needle : List Char := "\"is_user_error\"".data

/-- Characters up to the first `\x7b` or `\x7d`, together with that brace;
`none` if no brace follows. -/
def upToBrace : List Char → Option (List Char × Char)
  | [] => none
  | c :: rest =>
      if c == '{' || c == '}' then some ([], c)
      else match upToBrace rest with
           | some (m, b) => some (c :: m, b)
           | none => none

/-- `re.search` for the pattern of line 198 (an open brace, brace-free text
containing the quoted key `"is_user_error"`, a close brace): the leftmost
brace-free `\x7b...\x7d` block containing the quoted key, returned as the
matched text.  Because the character class excludes both braces, a match
starting at a given `\x7b` must end at the very next brace, which must be
a `\x7d`. -/
def braceScan : List Char → Option (List Char)
  | [] => none
  | c :: rest =>
      if c == '{' then
        match upToBrace rest with
        | some (mid, b) =>
            if b == '}' && (findSub mid needle).isSome
            then some ('{' :: (mid ++ ['}']))
            else braceScan rest
        | none => braceScan rest
      else braceScan rest

/-- Python `s.startswith(p)`. -/
def pyStartswith (s p : String) : Bool :=
  chPre p.data s.data

/-- The fixed fields merged with `**result_json` (lines 220-227): keys of
the parsed object are splatted last, so each one present overrides the
corresponding driver-set field. -/
def mkResult (issue : Issue) (o : Jobj) : IssueResult :=
  { issue_number := o.issue_number.getD issue.number,
    title := o.title.getD issue.title,
    url := o.url.getD issue.url,
    state := o.state.getD issue.state,
    labels := o.labels.getD issue.labels,
    is_user_error := o.is_user_error, confidence := o.confidence,
    reasoning := o.reasoning }

/-- `categorize_issue_with_claude` (lines 138-227).  `jl` is the `json.loads`
oracle and `tool` the subprocess oracle.  `Except.error` is a Python
exception escaping the function: the second `json.loads` (line 200) sits
inside the first `except` handler and outside any matching `try`, so its
`JSONDecodeError` propagates, and `**result_json` on a non-object raises
`TypeError`; neither is caught by the outer
`except subprocess.TimeoutExpired / CalledProcessError`. -/
def categorize_issue_with_claude (jl : String → JLoad) (tool : Issue → ToolResp)
    (issue : Issue) : Except PyExn IssueResult :=
  match tool issue with
  | .timeout =>
      .ok (mkResult issue
        { is_user_error := none, confidence := some "low",
          reasoning := some "Claude CLI timeout", issue_number := none,
          title := none, url := none, state := none, labels := none })
  | .procError stderr exnStr =>
      .ok (mkResult issue
        { is_user_error := none, confidence := some "low",
          reasoning := some ("Claude CLI error: " ++
            (if stderr.isEmpty then exnStr else stderr.take 200)),
          issue_number := none, title := none, url := none, state := none,
          labels := none })
  | .ok stdout =>
      let response_text := responseText stdout
      match jl response_text with
      | .obj o => .ok (mkResult issue o)
      | .nonDict => .error .typeError
      | .err =>
          match braceScan response_text.data with
          | some frag =>
              match jl (String.mk frag) with
              | .obj o => .ok (mkResult issue o)
              | .nonDict => .error .typeError
              | .err => .error .jsonDecodeError
          | none =>
              .ok (mkResult issue
                { is_user_error := none, confidence := some "low",
                  reasoning := some ("Failed to parse response: " ++
                    response_text.take 200), issue_number := none,
                  title := none, url := none, state := none,
                  labels := none })

/-- Claim C4 (code bug evidence): when the tool exits 0 but its stdout does
not decode as JSON, and the embedded-fragment scan finds a brace block that
does not decode either, the unguarded `json.loads` of line 200 raises a
`JSONDecodeError` past the driver instead of producing an
indeterminate-outcome result — contradicting the never-raises contract. -/
theorem categorize_raises_unguarded (jl : String → JLoad)
    (tool : Issue → ToolResp) (issue : Issue) (out : String)
    (frag : List Char)
    (htool : tool issue = .ok out)
    (hjl1 : jl (responseText out) = .err)
    (hscan : braceScan (responseText out).data = some frag)
    (hjl2 : jl (String.mk frag) = .err) :
    categorize_issue_with_claude jl tool issue = .error .jsonDecodeError := by
  unfold categorize_issue_with_claude
  rw [htool]
  simp only [hjl1, hscan, hjl2]

/-- Stdout that fails `json.loads`, yet matches the fallback regex with a
fragment that fails `json.loads` again. -/
def badStdout : String := "\x7bx \"is_user_error\" y\x7d"

def demoIssueC4 : Issue :=
  { number := 4, title := "t", body := "", state := "open", labels := [],
    comments := [], url := "u" }

theorem categorize_raises_unguarded_witness :
    categorize_issue_with_claude (fun _ => JLoad.err)
      (fun _ => ToolResp.ok badStdout) demoIssueC4 = .error .jsonDecodeError :=
  categorize_raises_unguarded (fun _ => JLoad.err)
    (fun _ => ToolResp.ok badStdout) demoIssueC4 badStdout
    badStdout.data rfl rfl (by decide) rfl

/-! ### The incremental driver loop of `main` (lines 291-313)

The loop is a fold over the fetched issues.  `invoked` instruments the
state with the issues for which the external tool was actually called
(the `categorize_issue_with_claude` call of line 309); a raised exception
aborts the fold, matching Python. -/

/-- The loop state: the `results` list, the two skip counters, and the
issues for which the tool was invoked. -/
structure RunState where
  results : List IssueResult
  skipped : Nat
  skipped_disabled : Nat
  invoked : List Issue
deriving DecidableEq

/-- One iteration of the loop body (lines 294-313): skip issues whose
title starts with "DISABLED", reuse a cached result, otherwise invoke the
tool. -/
def processOne (jl : String → JLoad) (tool : Issue → ToolResp) (cached : Store)
    (st : RunState) (issue : Issue) : Except PyExn RunState :=
  if pyStartswith issue.title "DISABLED" then
    .ok { st with skipped_disabled := st.skipped_disabled + 1 }
  else
    match lookup cached issue.number with
    | some r => .ok { st with results := st.results ++ [r], skipped := st.skipped + 1 }
    | none =>
        match categorize_issue_with_claude jl tool issue with
        | .ok r => .ok { st with results := st.results ++ [r],
                                 invoked := st.invoked ++ [issue] }
        | .error e => .error e

def runFrom (jl : String → JLoad) (tool : Issue → ToolResp) (cached : Store) :
    RunState → List Issue → Except PyExn RunState
  | st, [] => .ok st
  | st, i :: rest =>
      match processOne jl tool cached st i with
      | .ok st' => runFrom jl tool cached st' rest
      | .error e => .error e

/-- The whole loop, started from the empty state. -/
def runDriver (jl : String → JLoad) (tool : Issue → ToolResp) (cached : Store)
    (issues : List Issue) : Except PyExn RunState :=
  runFrom jl tool cached { results := [], skipped := 0, skipped_disabled := 0,
                           invoked := [] } issues

/-- Every key of the store maps to a result carrying that key as its
`issue_number` (true of every store the program builds, since it always
keys a record by the record's own `issue_number`). -/
def wfStore (s : Store) : Bool :=
  s.all (fun p => p.2.issue_number == p.1)

/-- No key occurs twice (true of every store the program builds). -/
def nodupKeys : Store → Bool
  | [] => true
  | (k, _) :: rest => !(rest.any (fun q => q.1 == k)) && nodupKeys rest

theorem lookup_wf (s : Store) (n : Nat) (r : IssueResult)
    (hwf : wfStore s = true) (h : lookup s n = some r) :
    r.issue_number = n := by
  induction s with
  | nil => cases h
  | cons a rest ih =>
      obtain ⟨k', v'⟩ := a
      have hall := List.all_eq_true.mp hwf
      by_cases hk : k' = n
      · subst hk
        have hv : v' = r := by simpa [lookup] using h
        subst hv
        have hb := hall (k', v') (List.mem_cons_self _ _)
        simp only [beq_iff_eq] at hb
        exact hb
      · simp only [lookup, if_neg hk] at h
        exact ih (List.all_eq_true.mpr fun p hp =>
          hall p (List.mem_cons_of_mem _ hp)) h

/-- Claim C3: a non-filtered issue whose identifier is in the loaded store
is resolved by the loop body without invoking the tool (`invoked` is left
unchanged), and the result appended to this run's batch is exactly the
cached one. -/
theorem driver_cache_hit_reuses (jl : String → JLoad) (tool : Issue → ToolResp)
    (cached : Store) (st : RunState) (issue : Issue) (r : IssueResult)
    (hnd : pyStartswith issue.title "DISABLED" = false)
    (hc : lookup cached issue.number = some r) :
    processOne jl tool cached st issue =
      .ok { st with results := st.results ++ [r], skipped := st.skipped + 1 } := by
  unfold processOne
  rw [hnd, hc]
  rfl

def demoCachedIssue : Issue :=
  { number := 3, title := "Crash on import", body := "", state := "open",
    labels := [], comments := [], url := "u" }

theorem driver_cache_hit_reuses_witness :
    processOne (fun _ => JLoad.err) (fun _ => ToolResp.timeout)
      [(3, demoResult 3 "cached")]
      { results := [], skipped := 0, skipped_disabled := 0, invoked := [] }
      demoCachedIssue =
    .ok { results := [demoResult 3 "cached"], skipped := 1,
          skipped_disabled := 0, invoked := [] } :=
  driver_cache_hit_reuses (fun _ => JLoad.err) (fun _ => ToolResp.timeout)
    [(3, demoResult 3 "cached")]
    { results := [], skipped := 0, skipped_disabled := 0, invoked := [] }
    demoCachedIssue (demoResult 3 "cached") (by decide) (by decide)

theorem runFrom_invoked (jl : String → JLoad) (tool : Issue → ToolResp)
    (cached : Store) (issues : List Issue) (st st' : RunState)
    (hrun : runFrom jl tool cached st issues = .ok st') :
    ∀ i, i ∈ st'.invoked → i ∈ st.invoked ∨
      (i ∈ issues ∧ pyStartswith i.title "DISABLED" = false ∧
        lookup cached i.number = none) := by
  induction issues generalizing st with
  | nil =>
      cases hrun
      exact fun i hi => Or.inl hi
  | cons hd rest ih =>
      intro i hi
      simp only [runFrom] at hrun
      cases hstep : processOne jl tool cached st hd with
      | error e => rw [hstep] at hrun; cases hrun
      | ok stm =>
          rw [hstep] at hrun
          rcases ih stm hrun i hi with hmem | ⟨hmem, hnd, hc⟩
          · unfold processOne at hstep
            by_cases hd1 : pyStartswith hd.title "DISABLED"
            · rw [if_pos hd1] at hstep
              cases hstep
              exact Or.inl hmem
            · rw [if_neg hd1] at hstep
              cases hc : lookup cached hd.number with
              | some r =>
                  rw [hc] at hstep
                  cases hstep
                  exact Or.inl hmem
              | none =>
                  rw [hc] at hstep
                  cases hcat : categorize_issue_with_claude jl tool hd with
                  | error e => rw [hcat] at hstep; cases hstep
                  | ok r =>
                      rw [hcat] at hstep
                      cases hstep
                      rcases List.mem_append.mp hmem with h | h
                      · exact Or.inl h
                      · have hieq : i = hd := List.mem_singleton.mp h
                        subst hieq
                        exact Or.inr ⟨List.mem_cons_self _ _,
                          Bool.of_not_eq_true hd1, hc⟩
          · exact Or.inr ⟨List.mem_cons_of_mem _ hmem, hnd, hc⟩

/-- Claim C7: in a completed run, every issue for which the tool was
invoked has a title that does not start with "DISABLED"; equivalently, the
driver never invokes the external analysis tool for a filtered item. -/
theorem driver_never_invokes_disabled (jl : String → JLoad)
    (tool : Issue → ToolResp) (cached : Store) (issues : List Issue)
    (st : RunState) (hrun : runDriver jl tool cached issues = .ok st) :
    ∀ issue, issue ∈ st.invoked → pyStartswith issue.title "DISABLED" = false := by
  intro issue hmem
  rcases runFrom_invoked jl tool cached issues _ st hrun issue hmem with h | h
  · cases h
  · exact h.2.1

def demoIssueC7 : Issue :=
  { number := 7, title := "Crash on import", body := "", state := "open",
    labels := [], comments := [], url := "u" }

/-- The result the timeout oracle yields for `demoIssueC7`. -/
def demoResultC7 : IssueResult :=
  { issue_number := 7, title := "Crash on import", url := "u", state := "open",
    labels := [], is_user_error := none, confidence := some "low",
    reasoning := some "Claude CLI timeout" }

theorem driver_never_invokes_disabled_witness :
    pyStartswith demoIssueC7.title "DISABLED" = false :=
  driver_never_invokes_disabled (fun _ => JLoad.err) (fun _ => ToolResp.timeout)
    [] [demoIssueC7]
    { results := [demoResultC7], skipped := 0, skipped_disabled := 0,
      invoked := [demoIssueC7] }
    rfl demoIssueC7 (by decide)

/-- The result (if any) the loop body records for a single issue; it does
not depend on the loop state. -/
def itemOutcome (jl : String → JLoad) (tool : Issue → ToolResp)
    (cached : Store) (issue : Issue) : Except PyExn (Option IssueResult) :=
  if pyStartswith issue.title "DISABLED" then .ok none
  else
    match lookup cached issue.number with
    | some r => .ok (some r)
    | none =>
        match categorize_issue_with_claude jl tool issue with
        | .ok r => .ok (some r)
        | .error e => .error e

theorem processOne_results_of_outcome (jl : String → JLoad)
    (tool : Issue → ToolResp) (cached : Store) (st : RunState) (issue : Issue)
    (r : IssueResult) (ho : itemOutcome jl tool cached issue = .ok (some r)) :
    ∃ st', processOne jl tool cached st issue = .ok st' ∧
      st'.results = st.results ++ [r] := by
  unfold itemOutcome at ho
  unfold processOne
  by_cases hd : pyStartswith issue.title "DISABLED"
  · rw [if_pos hd] at ho
    cases ho
  · rw [if_neg hd] at ho
    rw [if_neg hd]
    cases hc : lookup cached issue.number with
    | some x =>
        rw [hc] at ho
        cases ho
        exact ⟨_, rfl, rfl⟩
    | none =>
        rw [hc] at ho
        cases hcat : categorize_issue_with_claude jl tool issue with
        | ok x =>
            rw [hcat] at ho
            cases ho
            exact ⟨_, rfl, rfl⟩
        | error e =>
            rw [hcat] at ho
            cases ho

theorem runFrom_append (jl : String → JLoad) (tool : Issue → ToolResp)
    (cached : Store) (a b : List Issue) (st : RunState) :
    runFrom jl tool cached st (a ++ b) =
      match runFrom jl tool cached st a with
      | .ok m => runFrom jl tool cached m b
      | .error e => .error e := by
  induction a generalizing st with
  | nil => rfl
  | cons hd rest ih =>
      simp only [List.cons_append, runFrom]
      cases processOne jl tool cached st hd with
      | ok st' => exact ih st'
      | error e => rfl

def demoIssueEarly : Issue :=
  { number := 1, title := "first report", body := "", state := "open",
    labels := [], comments := [], url := "u" }

def demoIssueLate : Issue :=
  { number := 1, title := "second report", body := "", state := "open",
    labels := [], comments := [], url := "u" }

/-- The result the timeout oracle yields for `demoIssueLate`. -/
def demoResultLate : IssueResult :=
  { issue_number := 1, title := "second report", url := "u", state := "open",
    labels := [], is_user_error := none, confidence := some "low",
    reasoning := some "Claude CLI timeout" }

/-- The state after running the driver on the two same-identifier issues
with the timeout oracle. -/
def demoStateC5 : RunState :=
  { results := [{ demoResultLate with title := "first report" }, demoResultLate],
    skipped := 0, skipped_disabled := 0,
    invoked := [demoIssueEarly, demoIssueLate] }

/-- A tool reply that is valid JSON and decodes to an object carrying,
besides the expected key, an `issue_number` key: `**result_json`
(line 226) splats it over the driver-set field. -/
def overrideStdout : String := "\x7b\"is_user_error\": true, \"issue_number\": 999\x7d"

/-- `json.loads` on the strings this run feeds it: `overrideStdout`
decodes to the overriding object, nothing else parses. -/
def jlOverride : String → JLoad := fun s =>
  if s = overrideStdout then
    .obj { is_user_error := some true, confidence := none, reasoning := none,
           issue_number := some 999, title := none, url := none,
           state := none, labels := none }
  else .err

/-- The subprocess oracle of the counterexample run: the later item gets
the overriding reply, the earlier one times out. -/
def toolOverride : Issue → ToolResp := fun i =>
  if i.title = "second report" then .ok overrideStdout else .timeout

/-- The result the run records for the later item: re-keyed to 999. -/
def overrideResult : IssueResult :=
  { issue_number := 999, title := "second report", url := "u", state := "open",
    labels := [], is_user_error := some true, confidence := none,
    reasoning := none }

/-- The state after the counterexample run. -/
def stOverride : RunState :=
  { results := [{ demoResultLate with title := "first report" }, overrideResult],
    skipped := 0, skipped_disabled := 0,
    invoked := [demoIssueEarly, demoIssueLate] }

/-- Claim C5 counterexample: a batch with two items of identifier 1, both
processed, where the later item's tool reply decodes to
`\x7b"is_user_error": true, "issue_number": 999\x7d`.  The `**result_json`
merge re-keys the later record to 999, so after the merge the store's
entry for the shared identifier is the EARLIER item's result, not the
later one's — the later item does not determine the entry. -/
theorem later_duplicate_loses_on_override :
    demoIssueEarly.number = demoIssueLate.number ∧
    runDriver jlOverride toolOverride [] [demoIssueEarly, demoIssueLate] =
      .ok stOverride ∧
    itemOutcome jlOverride toolOverride [] demoIssueLate =
      .ok (some overrideResult) ∧
    lookup (merge [] stOverride.results) demoIssueLate.number =
      some { demoResultLate with title := "first report" } ∧
    ({ demoResultLate with title := "first report" } : IssueResult) ≠
      overrideResult :=
  ⟨rfl, rfl, rfl, rfl, by decide⟩

/-- Claim C5 as amended: the last item of the batch carrying an identifier
determines the merged store's entry for that identifier, provided the
result recorded for it keeps that identifier as its `issue_number` —
always the case for cache hits and for tool replies that do not splat an
overriding `issue_number` key; a reply that does override it re-keys the
record and lets an earlier duplicate's entry stand. -/
theorem driver_last_item_wins (jl : String → JLoad)
    (tool : Issue → ToolResp) (cached : Store) (xs : List Issue)
    (it : Issue) (st : RunState) (r : IssueResult)
    (ho : itemOutcome jl tool cached it = .ok (some r))
    (hr : r.issue_number = it.number)
    (hrun : runDriver jl tool cached (xs ++ [it]) = .ok st) :
    lookup (merge cached st.results) it.number = some r := by
  unfold runDriver at hrun
  rw [runFrom_append] at hrun
  cases h1 : runFrom jl tool cached
      { results := [], skipped := 0, skipped_disabled := 0, invoked := [] } xs with
  | error e => rw [h1] at hrun; cases hrun
  | ok m1 =>
      rw [h1] at hrun
      simp only [runFrom] at hrun
      rcases processOne_results_of_outcome jl tool cached m1 it r ho with
        ⟨m2, hstep, hres2⟩
      rw [hstep] at hrun
      cases hrun
      rw [lookup_merge, hres2]
      have hrev : (m1.results ++ [r]).reverse = r :: m1.results.reverse := by
        simp
      rw [hrev]
      have h3 : (r.issue_number == it.number) = true := beq_iff_eq.mpr hr
      simp [List.find?, h3]

theorem driver_last_item_wins_witness :
    lookup (merge [] demoStateC5.results) 1 = some demoResultLate :=
  driver_last_item_wins (fun _ => JLoad.err) (fun _ => ToolResp.timeout)
    [] [demoIssueEarly] demoIssueLate demoStateC5 demoResultLate
    rfl rfl rfl

/-! ### Cache load (lines 264-274) and persist (lines 324-346)

The on-disk `results.json` as the next run's loader sees it: the file may
be absent, fail `json.load`, decode to a non-object (then
`existing.get("issues", [])` raises an uncaught `AttributeError`), or
decode to an object whose `issues` list holds records that may lack the
`"issue_number"` key (then the `KeyError` is caught mid-loop: the store
keeps the records loaded so far and a warning is printed). -/

/-- A record of the persisted `issues` list; its `"issue_number"` key may
be absent. -/
structure RawRec where
  issue_number : Option Nat
  title : String
  url : String
  state : String
  labels : List String
  is_user_error : Option Bool
  confidence : Option String
  reasoning : Option String
deriving DecidableEq

/-- The record as stored under key `k` (in Python the dict itself is the
stored value, and `k` was just read from it). -/
def recToResult (rec : RawRec) (k : Nat) : IssueResult :=
  { issue_number := k, title := rec.title, url := rec.url, state := rec.state,
    labels := rec.labels, is_user_error := rec.is_user_error,
    confidence := rec.confidence, reasoning := rec.reasoning }

/-- How `json.dump` serializes an in-memory result record. -/
def toRaw (r : IssueResult) : RawRec :=
  { issue_number := some r.issue_number, title := r.title, url := r.url,
    state := r.state, labels := r.labels, is_user_error := r.is_user_error,
    confidence := r.confidence, reasoning := r.reasoning }

/-- The loop `for issue_result in existing.get("issues", []):
cached_results[issue_result["issue_number"]] = issue_result`, with the
surrounding `except (json.JSONDecodeError, KeyError)` handler: a record
without the key stops the loop, keeps what was loaded, and warns
(second component: whether the warning was printed). -/
def loadRecs : Store → List RawRec → Store × Bool
  | acc, [] => (acc, false)
  | acc, rec :: rest =>
      match rec.issue_number with
      | some k => loadRecs (dictInsert acc k (recToResult rec k)) rest
      | none => (acc, true)

/-- Top-level shape of the decoded JSON document. -/
inductive JsonTop where
  | nonObject
  | object (issues : Option (List RawRec))
deriving DecidableEq

/-- The state of `args.output` at load time. -/
inductive LoadInput where
  | missing
  | badJson
  | parsed (top : JsonTop)
deriving DecidableEq

/-- The cache-loading block of `main` (lines 264-274).  The result pairs
the loaded store with the warning flag; `Except.error` is an uncaught
Python exception aborting the run. -/
def loadCache : LoadInput → Except PyExn (Store × Bool)
  | .missing => .ok ([], false)
  | .badJson => .ok ([], true)
  | .parsed .nonObject => .error .attributeError
  | .parsed (.object none) => .ok ([], false)
  | .parsed (.object (some recs)) => .ok (loadRecs [] recs)

/-- The derived summary tally (lines 327-337). -/
structure Summary where
  total : Nat
  user_errors : Nat
  non_user_errors : Nat
  uncertain : Nat
deriving DecidableEq

/-- The persisted document: summary plus ordered per-item records. -/
structure Output where
  summary : Summary
  issues : List IssueResult
deriving DecidableEq

/-- Lines 325-339: `all_results = list(cached_results.values())` and the
summary counts (`r.get("is_user_error")` truthy / `is False` / `is None`). -/
def mkOutput (store : Store) : Output :=
  let all_results := store.map Prod.snd
  { summary :=
      { total := all_results.length,
        user_errors :=
          (all_results.filter (fun r => r.is_user_error.getD false)).length,
        non_user_errors :=
          (all_results.filter (fun r => r.is_user_error == some false)).length,
        uncertain :=
          (all_results.filter (fun r => r.is_user_error == none)).length },
    issues := all_results }

/-- The file written by `json.dump(output, f)` as the next run's loader
decodes it (`json.dump`/`json.load` are mutually inverse on this shape). -/
def persistFile (store : Store) : LoadInput :=
  .parsed (.object (some ((mkOutput store).issues.map toRaw)))

theorem any_key_dictInsert (s : Store) (k : Nat) (v : IssueResult) (q : Nat) :
    (dictInsert s k v).any (fun p => p.1 == q) =
      (s.any (fun p => p.1 == q) || (k == q)) := by
  induction s with
  | nil => simp [dictInsert]
  | cons a rest ih =>
      obtain ⟨k', v'⟩ := a
      by_cases hk : k' = k
      · subst hk
        simp only [dictInsert, if_pos rfl, List.any_cons]
        cases hq : (k' == q) <;> simp [hq]
      · simp only [dictInsert, if_neg hk, List.any_cons, ih]
        cases hq : (k' == q) <;> simp [hq, Bool.or_assoc]

theorem dictInsert_wf (s : Store) (k : Nat) (v : IssueResult)
    (hwf : wfStore s = true) (hv : v.issue_number = k) :
    wfStore (dictInsert s k v) = true := by
  induction s with
  | nil => simp [dictInsert, wfStore, hv]
  | cons a rest ih =>
      obtain ⟨k', v'⟩ := a
      simp only [wfStore, List.all_cons, Bool.and_eq_true] at hwf
      by_cases hk : k' = k
      · subst hk
        have hstep : dictInsert ((k', v') :: rest) k' v = (k', v) :: rest := by
          simp [dictInsert]
        rw [hstep]
        simp only [wfStore, List.all_cons, Bool.and_eq_true]
        exact ⟨by simp [hv], hwf.2⟩
      · simp only [dictInsert, if_neg hk, wfStore, List.all_cons,
          Bool.and_eq_true]
        exact ⟨hwf.1, ih hwf.2⟩

theorem dictInsert_nodup (s : Store) (k : Nat) (v : IssueResult)
    (hnd : nodupKeys s = true) :
    nodupKeys (dictInsert s k v) = true := by
  induction s with
  | nil => simp [dictInsert, nodupKeys]
  | cons a rest ih =>
      obtain ⟨k', v'⟩ := a
      simp only [nodupKeys, Bool.and_eq_true, Bool.not_eq_true'] at hnd
      by_cases hk : k' = k
      · subst hk
        simp only [dictInsert, if_pos rfl, nodupKeys, Bool.and_eq_true,
          Bool.not_eq_true']
        exact hnd
      · simp only [dictInsert, if_neg hk, nodupKeys, Bool.and_eq_true,
          Bool.not_eq_true', any_key_dictInsert]
        refine ⟨?_, ih hnd.2⟩
        have hkk : (k == k') = false :=
          beq_eq_false_iff_ne.mpr (fun h => hk h.symm)
        simp [hnd.1, hkk]

theorem loadRecs_wf (recs : List RawRec) (acc : Store)
    (hwf : wfStore acc = true) :
    wfStore (loadRecs acc recs).1 = true := by
  induction recs generalizing acc with
  | nil => exact hwf
  | cons rec rest ih =>
      cases hk : rec.issue_number with
      | none => simpa [loadRecs, hk] using hwf
      | some k =>
          simp only [loadRecs, hk]
          exact ih _ (dictInsert_wf acc k (recToResult rec k) hwf rfl)

theorem loadRecs_nodup (recs : List RawRec) (acc : Store)
    (hnd : nodupKeys acc = true) :
    nodupKeys (loadRecs acc recs).1 = true := by
  induction recs generalizing acc with
  | nil => exact hnd
  | cons rec rest ih =>
      cases hk : rec.issue_number with
      | none => simpa [loadRecs, hk] using hnd
      | some k =>
          simp only [loadRecs, hk]
          exact ih _ (dictInsert_nodup acc k (recToResult rec k) hnd)

theorem loadCache_wf_nodup (inp : LoadInput) (S : Store) (w : Bool)
    (hload : loadCache inp = .ok (S, w)) :
    wfStore S = true ∧ nodupKeys S = true := by
  cases inp with
  | missing => cases hload; exact ⟨rfl, rfl⟩
  | badJson => cases hload; exact ⟨rfl, rfl⟩
  | parsed top =>
      cases top with
      | nonObject => cases hload
      | object oi =>
          cases oi with
          | none => cases hload; exact ⟨rfl, rfl⟩
          | some recs =>
              have hS : S = (loadRecs [] recs).1 := by
                have h : (loadRecs [] recs) = (S, w) := by
                  simpa [loadCache] using hload
                rw [h]
              rw [hS]
              exact ⟨loadRecs_wf recs [] rfl, loadRecs_nodup recs [] rfl⟩

theorem merge_wf (S : Store) (R : List IssueResult)
    (hwf : wfStore S = true) : wfStore (merge S R) = true := by
  induction R generalizing S with
  | nil => exact hwf
  | cons r rs ih => exact ih _ (dictInsert_wf S r.issue_number r hwf rfl)

theorem merge_nodup (S : Store) (R : List IssueResult)
    (hnd : nodupKeys S = true) : nodupKeys (merge S R) = true := by
  induction R generalizing S with
  | nil => exact hnd
  | cons r rs ih => exact ih _ (dictInsert_nodup S r.issue_number r hnd)

theorem dictInsert_not_mem (s : Store) (k : Nat) (v : IssueResult)
    (h : s.any (fun p => p.1 == k) = false) :
    dictInsert s k v = s ++ [(k, v)] := by
  induction s with
  | nil => rfl
  | cons a rest ih =>
      obtain ⟨k', v'⟩ := a
      simp only [List.any_cons, Bool.or_eq_false_iff] at h
      have hk : ¬k' = k := by
        intro he
        rw [he] at h
        simp at h
      simp only [dictInsert, if_neg hk, List.cons_append, List.cons.injEq]
      exact ⟨by trivial, ih h.2⟩

theorem nodup_append_last (s : Store) (k : Nat) (v : IssueResult)
    (h : nodupKeys (s ++ [(k, v)]) = true) :
    s.any (fun p => p.1 == k) = false ∧ nodupKeys s = true := by
  induction s with
  | nil => exact ⟨rfl, rfl⟩
  | cons a rest ih =>
      obtain ⟨k', v'⟩ := a
      rw [List.cons_append] at h
      simp only [nodupKeys, Bool.and_eq_true, Bool.not_eq_true'] at h
      obtain ⟨hany, hrest⟩ := h
      rw [List.any_append] at hany
      rcases Bool.or_eq_false_iff.mp hany with ⟨hany1, hany2⟩
      simp only [List.any_cons, List.any_nil, Bool.or_false] at hany2
      obtain ⟨h4, h5⟩ := ih hrest
      constructor
      · simp only [List.any_cons, Bool.or_eq_false_iff]
        refine ⟨beq_eq_false_iff_ne.mpr ?_, h4⟩
        exact fun he => (beq_eq_false_iff_ne.mp hany2) he.symm
      · simp only [nodupKeys, Bool.and_eq_true, Bool.not_eq_true']
        exact ⟨hany1, h5⟩

theorem wf_append_last (s : Store) (k : Nat) (v : IssueResult)
    (h : wfStore (s ++ [(k, v)]) = true) :
    wfStore s = true ∧ v.issue_number = k := by
  simp only [wfStore, List.all_append, List.all_cons, List.all_nil,
    Bool.and_eq_true, beq_iff_eq] at h
  exact ⟨List.all_eq_true.mpr (fun p hp =>
    List.all_eq_true.mp h.1 p hp), h.2.1⟩

theorem merge_append (S : Store) (a b : List IssueResult) :
    merge S (a ++ b) = merge (merge S a) b := by
  simp [merge, List.foldl_append]

/-- Rebuilding a well-formed duplicate-free store from its values yields
the store itself, entry for entry. -/
theorem merge_values_id (s : Store) (hwf : wfStore s = true)
    (hnd : nodupKeys s = true) :
    merge [] (s.map Prod.snd) = s := by
  induction s using List.reverseRecOn with
  | nil => rfl
  | append_singleton s p ih =>
      obtain ⟨k, v⟩ := p
      rcases wf_append_last s k v hwf with ⟨hwf', hv⟩
      rcases nodup_append_last s k v hnd with ⟨hany, hnd'⟩
      rw [List.map_append, merge_append, ih hwf' hnd']
      simp only [List.map_cons, List.map_nil, merge, List.foldl_cons,
        List.foldl_nil]
      rw [hv]
      exact dictInsert_not_mem s k v hany

theorem loadRecs_map_toRaw (l : List IssueResult) (acc : Store) :
    loadRecs acc (l.map toRaw) = (merge acc l, false) := by
  induction l generalizing acc with
  | nil => rfl
  | cons r rest ih =>
      simp only [List.map_cons, loadRecs, toRaw]
      exact ih _

/-- Claim C6: the persisted result file round-trips — for any store the
program loads, merging a batch, persisting the merged store and loading it
again reproduces exactly the merged in-memory store (and no warning). -/
theorem store_roundtrip (inp : LoadInput) (S : Store) (w : Bool)
    (R : List IssueResult) (hload : loadCache inp = .ok (S, w)) :
    loadCache (persistFile (merge S R)) = .ok (merge S R, false) := by
  obtain ⟨hwf, hnd⟩ := loadCache_wf_nodup inp S w hload
  have hwf' := merge_wf S R hwf
  have hnd' := merge_nodup S R hnd
  show loadCache (.parsed (.object (some (((merge S R).map Prod.snd).map toRaw))))
      = .ok (merge S R, false)
  simp only [loadCache]
  rw [loadRecs_map_toRaw, merge_values_id (merge S R) hwf' hnd']

theorem store_roundtrip_witness :
    loadCache (persistFile (merge [(1, demoResult 1 "one")]
        [demoResult 2 "two"])) =
      .ok (merge [(1, demoResult 1 "one")] [demoResult 2 "two"], false) :=
  store_roundtrip (.parsed (.object (some [toRaw (demoResult 1 "one")])))
    [(1, demoResult 1 "one")] false [demoResult 2 "two"] rfl

/-- Claim C8 counterexample: a file that is valid JSON whose top level is
not an object makes `existing.get("issues", [])` raise an uncaught
`AttributeError`, aborting the run — the load neither warns nor returns an
empty store. -/
theorem load_nonobject_aborts :
    loadCache (.parsed .nonObject) = .error .attributeError ∧
    ∀ p : Store × Bool, loadCache (.parsed .nonObject) ≠ .ok p :=
  ⟨rfl, fun p h => Except.noConfusion h⟩

theorem loadRecs_snd_false (recs : List RawRec) (acc : Store)
    (h : ∀ rec, rec ∈ recs → rec.issue_number ≠ none) :
    (loadRecs acc recs).2 = false := by
  induction recs generalizing acc with
  | nil => rfl
  | cons rec rest ih =>
      cases hk : rec.issue_number with
      | none => exact absurd hk (h rec (List.mem_cons_self _ _))
      | some k =>
          simp only [loadRecs, hk]
          exact ih _ (fun x hx => h x (List.mem_cons_of_mem _ hx))

theorem loadRecs_split (good : List RawRec) (acc : Store) (bad : RawRec)
    (rest : List RawRec) (hgood : ∀ rec, rec ∈ good → rec.issue_number ≠ none)
    (hbad : bad.issue_number = none) :
    loadRecs acc (good ++ bad :: rest) = ((loadRecs acc good).1, true) := by
  induction good generalizing acc with
  | nil => simp [loadRecs, hbad]
  | cons g gs ih =>
      cases hk : g.issue_number with
      | none => exact absurd hk (hgood g (List.mem_cons_self _ _))
      | some k =>
          simp only [List.cons_append, loadRecs, hk]
          exact ih _ (fun x hx => hgood x (List.mem_cons_of_mem _ hx))

/-- Claim C8 as amended: with no prior file (or no `issues` key) the load
returns an empty store without warning; a file that is not valid JSON
warns and returns an empty store; a valid JSON object loads its records
until the first one lacking the identifier key — such a record warns and
keeps the partially built store rather than an empty one; and a valid
JSON file whose top level is not an object aborts the run with an
uncaught error. -/
theorem loadCache_amended :
    loadCache .missing = .ok ([], false) ∧
    loadCache .badJson = .ok ([], true) ∧
    loadCache (.parsed (.object none)) = .ok ([], false) ∧
    loadCache (.parsed .nonObject) = .error .attributeError ∧
    (∀ recs, (∀ rec, rec ∈ recs → rec.issue_number ≠ none) →
      loadCache (.parsed (.object (some recs))) =
        .ok ((loadRecs [] recs).1, false)) ∧
    (∀ good bad rest, (∀ rec, rec ∈ good → rec.issue_number ≠ none) →
      bad.issue_number = none →
      loadCache (.parsed (.object (some (good ++ bad :: rest)))) =
        .ok ((loadRecs [] good).1, true)) := by
  refine ⟨rfl, rfl, rfl, rfl, ?_, ?_⟩
  · intro recs h
    simp only [loadCache]
    rw [show loadRecs [] recs = ((loadRecs [] recs).1, (loadRecs [] recs).2)
      from rfl, loadRecs_snd_false recs [] h]
  · intro good bad rest hgood hbad
    simp only [loadCache]
    rw [loadRecs_split good [] bad rest hgood hbad]

def badRec : RawRec :=
  { issue_number := none, title := "", url := "", state := "", labels := [],
    is_user_error := none, confidence := none, reasoning := none }

theorem loadCache_amended_witness :
    loadCache (.parsed (.object (some ([toRaw (demoResult 1 "one")] ++
        badRec :: [])))) = .ok ([(1, demoResult 1 "one")], true) := by
  have h := loadCache_amended.2.2.2.2.2 [toRaw (demoResult 1 "one")] badRec []
    (by intro rec hrec; rw [List.mem_singleton.mp hrec]; decide) rfl
  rw [h]
  rfl

end CatIssues

namespace ProcessExport

/-!
Embedding of `process_export_issues.py`: the per-issue skip/placeholder
decision of `main` (lines 315-340) and `collect_results` (lines 133-150).
-/

/-- An issue dict as returned by `gh issue list --json
number,title,body,labels,createdAt,state,author`.  `author` is the login
(absent key modelled as `none`); an absent `state` is the empty string
(the code reads `issue.get("state", "")`). -/
structure ExportIssue where
  number : Nat
  title : String
  state : String
  createdAt : String
  author : Option String
deriving DecidableEq

/-- A per-issue `result.json` document; `none` is JSON `null` or an absent
key (the code reads every field with `.get`). -/
structure ExportResult where
  category : Option String
  summary : Option String
  closed : Option Bool
  answer : Option String
  repro_code : Option String
  repro_output : Option String
  commit_hash : Option String
  fix_description : Option String
  patch_file : Option String
deriving DecidableEq

/-- Python `str.upper()` (ASCII, as produced by the GitHub states). -/
def pyUpper (s : String) : String :=
  String.mk (s.data.map Char.toUpper)

/-- Line 319: `issue.get("state", "").upper() == "CLOSED"`. -/
def isClosed (issue : ExportIssue) : Bool :=
  pyUpper issue.state == "CLOSED"

/-- `issue_dir_name` (lines 36-40): the creation date rendered
`%Y_%m_%d` followed by `_issue_{number}`.  For the ISO-8601 timestamps
`gh` emits, `strftime("%Y_%m_%d")` of the parsed timestamp is exactly the
first ten characters with dashes replaced by underscores. -/
def issue_dir_name (issue : ExportIssue) : String :=
  String.mk ((issue.createdAt.data.take 10).map
    (fun c => if c == '-' then '_' else c)) ++ "_issue_" ++ toString issue.number

/-- The placeholder written for a closed issue under `--skip-closed`
(lines 328-338). -/
def skippedClosedResult : ExportResult :=
  { category := some "error", summary := some "Skipped (issue is closed)",
    closed := some true, answer := none, repro_code := none,
    repro_output := none, commit_hash := none, fix_description := none,
    patch_file := none }

/-- What the main loop does with one issue: skip it because a `result.json`
already exists, write the synthetic closed-skip placeholder, or process it
with the Claude CLI (remembering whether to mark the result closed). -/
inductive IssueAction where
  | skipExisting
  | writePlaceholder (r : ExportResult)
  | processWithClaude (markClosed : Bool)
deriving DecidableEq

/-- The decision sequence of the main loop (lines 315-342): existing
result first, then closed-and-skip-closed, then processing. -/
def decideIssue (resultExists : Bool) (skipClosed : Bool)
    (issue : ExportIssue) : IssueAction :=
  if resultExists then .skipExisting
  else if isClosed issue && skipClosed then .writePlaceholder skippedClosedResult
  else .processWithClaude (isClosed issue)

/-- Claim C9: a closed issue, under `--skip-closed` and with no existing
per-item result file, is never handed to the Claude CLI; the loop instead
writes the synthetic placeholder with category "error", summary
"Skipped (issue is closed)" and the closed mark. -/
theorem skip_closed_writes_placeholder (issue : ExportIssue)
    (resultExists skipClosed : Bool)
    (h1 : resultExists = false) (h2 : skipClosed = true)
    (h3 : isClosed issue = true) :
    decideIssue resultExists skipClosed issue =
      .writePlaceholder
        { category := some "error",
          summary := some "Skipped (issue is closed)", closed := some true,
          answer := none, repro_code := none, repro_output := none,
          commit_hash := none, fix_description := none,
          patch_file := none } ∧
    ∀ b, decideIssue resultExists skipClosed issue ≠ .processWithClaude b := by
  subst h1
  subst h2
  constructor
  · simp [decideIssue, h3, skippedClosedResult]
  · intro b h
    simp [decideIssue, h3, skippedClosedResult] at h

def demoClosedIssue : ExportIssue :=
  { number := 9, title := "export fails", state := "closed",
    createdAt := "2026-02-18T00:00:00Z", author := some "alice" }

theorem skip_closed_writes_placeholder_witness :
    decideIssue false true demoClosedIssue =
      .writePlaceholder
        { category := some "error",
          summary := some "Skipped (issue is closed)", closed := some true,
          answer := none, repro_code := none, repro_output := none,
          commit_hash := none, fix_description := none,
          patch_file := none } ∧
    ∀ b, decideIssue false true demoClosedIssue ≠ .processWithClaude b :=
  skip_closed_writes_placeholder demoClosedIssue false true rfl rfl (by decide)

/-- A row of the final report, as built by `collect_results`. -/
structure ReportEntry where
  number : Nat
  title : String
  dir : String
  author : String
  result : ExportResult
deriving DecidableEq

/-- The state of an issue's `result.json` at collection time. -/
inductive FileState where
  | absent
  | invalidJson
  | valid (r : ExportResult)
deriving DecidableEq

/-- The body of the `collect_results` loop (lines 135-149) for one issue. -/
def collectEntry (file : FileState) (issue : ExportIssue) : ReportEntry :=
  { number := issue.number, title := issue.title,
    dir := issue_dir_name issue, author := issue.author.getD "unknown",
    result :=
      match file with
      | .valid r => r
      | .invalidJson =>
          { category := some "error", summary := some "Invalid result.json",
            closed := none, answer := none, repro_code := none,
            repro_output := none, commit_hash := none,
            fix_description := none, patch_file := none }
      | .absent =>
          { category := some "error",
            summary := some "No result produced by Claude", closed := none,
            answer := none, repro_code := none, repro_output := none,
            commit_hash := none, fix_description := none,
            patch_file := none } }

/-- `collect_results` (lines 133-150); `file` reports the on-disk state of
each issue's `result.json`. -/
def collect_results (file : ExportIssue → FileState)
    (issues : List ExportIssue) : List ReportEntry :=
  issues.map (fun issue => collectEntry (file issue) issue)

/-- Claim C10: collection is total over the fetch batch — exactly one
report entry per fetched issue, in order, carrying the issue's number; a
missing `result.json` yields the synthetic "No result produced by Claude"
error record and an unparseable one the synthetic "Invalid result.json"
error record, so report generation never fails. -/
theorem collect_results_total (file : ExportIssue → FileState)
    (issues : List ExportIssue) :
    (collect_results file issues).length = issues.length ∧
    (∀ i : Nat, (collect_results file issues)[i]? =
      (issues[i]?).map (fun issue => collectEntry (file issue) issue)) ∧
    (∀ issue, (collectEntry (file issue) issue).number = issue.number) ∧
    (∀ issue, file issue = .absent →
      (collectEntry (file issue) issue).result =
        { category := some "error",
          summary := some "No result produced by Claude", closed := none,
          answer := none, repro_code := none, repro_output := none,
          commit_hash := none, fix_description := none,
          patch_file := none }) ∧
    (∀ issue, file issue = .invalidJson →
      (collectEntry (file issue) issue).result =
        { category := some "error", summary := some "Invalid result.json",
          closed := none, answer := none, repro_code := none,
          repro_output := none, commit_hash := none,
          fix_description := none, patch_file := none }) ∧
    (∀ issue r, file issue = .valid r →
      (collectEntry (file issue) issue).result = r) := by
  refine ⟨?_, ?_, ?_, ?_, ?_, ?_⟩
  · simp [collect_results]
  · intro i
    simp [collect_results, List.getElem?_map]
  · intro issue
    rfl
  · intro issue h
    simp [collectEntry, h]
  · intro issue h
    simp [collectEntry, h]
  · intro issue r h
    simp [collectEntry, h]

def demoExportIssue : ExportIssue :=
  { number := 2, title := "export crash", state := "OPEN",
    createdAt := "2026-02-18T00:00:00Z", author := none }

theorem collect_results_total_witness :
    (collect_results (fun _ => FileState.absent) [demoExportIssue]).length = 1 ∧
    (collectEntry ((fun _ => FileState.absent) demoExportIssue)
        demoExportIssue).result =
      { category := some "error",
        summary := some "No result produced by Claude", closed := none,
        answer := none, repro_code := none, repro_output := none,
        commit_hash := none, fix_description := none, patch_file := none } :=
  ⟨(collect_results_total (fun _ => FileState.absent) [demoExportIssue]).1,
   (collect_results_total (fun _ => FileState.absent)
      [demoExportIssue]).2.2.2.1 demoExportIssue rfl⟩

end ProcessExport
